import Mathlib

/-!
Verification development for the multi-tenant GitHub-runner control plane.

The definitions below are a shallow embedding of the TypeScript sources:
  - `TenantSystem` basics mirror `lambdas/libs/tenant-registry/src/index.ts`
    (tenant record shape, tier table, CRUD over the DynamoDB tenant table,
    and the bounded in-memory cache),
  - `WebhookTenant` mirrors the webhook's graceful-degradation lookup
    (`getTenantCached` returning a discriminated-union outcome),
  - `ControlPlaneTenant` mirrors the scale-up (admission) fail-closed lookup
    (`getTenantConfig` / `lookupTenant` raising `TenantLookupError`),
  - `Dispatch` mirrors `lambdas/functions/webhook/src/runners/dispatch.ts`
    (`canRunJob` label matching and the exact-match-first queue selection),
  - `InstallationHandler` mirrors
    `lambdas/functions/tenant-manager/src/handlers/installation.ts`.

The DynamoDB table and the JavaScript `Map` are both modelled as association
lists in insertion order (a JS `Map` iterates keys in insertion order, and
`set` on an existing key keeps the entry at its original position).  Store
I/O failure is modelled by a `StoreFetch` outcome handed to the functions
that perform the read, exceptions by `Except`.
-/

namespace TenantSystem

inductive TenantStatus
  | active
  | suspended
  | deleted
deriving DecidableEq, Repr

inductive TenantTier
  | small
  | medium
  | large
deriving DecidableEq, Repr

inductive OrgType
  | organization
  | user
deriving DecidableEq, Repr

structure TenantMetadata where
  github_account_id : Option Int
  sender_login : Option String
  sender_id : Option Int
deriving DecidableEq, Repr

/-- `TenantConfig` from tenant-registry `index.ts`. -/
structure TenantConfig where
  installation_id : Int
  org_name : String
  org_type : OrgType
  status : TenantStatus
  tier : TenantTier
  max_runners : Nat
  created_at : String
  updated_at : String
  metadata : Option TenantMetadata
deriving DecidableEq, Repr

/-- `TIER_LIMITS` from tenant-registry `index.ts`. -/
def TIER_LIMITS : TenantTier → Nat
  | .small => 2
  | .medium => 5
  | .large => 10

/-! ### Insertion-ordered map (JS `Map` / DynamoDB table model) -/

/-- `Map.get`: value of the first (unique) entry with the given key. -/
def mapGet {α : Type} : List (Int × α) → Int → Option α
  | [], _ => none
  | p :: ps, k => if p.1 = k then some p.2 else mapGet ps k

/-- `Map.has`. -/
def mapContains {α : Type} (m : List (Int × α)) (k : Int) : Bool :=
  (mapGet m k).isSome

/-- `Map.set`: replace in place if the key exists (JS `Map.set` keeps the
entry's insertion position), otherwise append at the end. -/
def mapSet {α : Type} : List (Int × α) → Int → α → List (Int × α)
  | [], k, v => [(k, v)]
  | p :: ps, k, v => if p.1 = k then (k, v) :: ps else p :: mapSet ps k v

/-- `Map.delete`: remove every entry with the given key (at most one when
keys are distinct, as in a JS `Map`). -/
def mapDelete {α : Type} : List (Int × α) → Int → List (Int × α)
  | [], _ => []
  | p :: ps, k => if p.1 = k then mapDelete ps k else p :: mapDelete ps k

/-! ### Bounded TTL cache (tenant-registry `index.ts` / webhook `tenant.ts`) -/

/-- One entry of the in-memory `tenantCache` JS `Map`:
`{ tenant: TenantConfig; expiry: number }`. -/
structure CacheEntry where
  tenant : TenantConfig
  expiry : Nat
deriving DecidableEq, Repr

/-- `CACHE_TTL_MS = 60000`. -/
def CACHE_TTL_MS : Nat := 60000

/-- The cache-population step shared by both `getTenantCached` variants:

```
if (tenantCache.size >= MAX_CACHE_SIZE && !tenantCache.has(installationId)) {
  const oldestKey = tenantCache.keys().next().value;
  if (oldestKey !== undefined) tenantCache.delete(oldestKey);
}
tenantCache.set(installationId, { tenant, expiry: Date.now() + CACHE_TTL_MS });
```

`Map.keys()` iterates in insertion order, so `oldestKey` is the head. -/
def cachePopulate (maxSize : Nat) (cache : List (Int × CacheEntry)) (k : Int)
    (e : CacheEntry) : List (Int × CacheEntry) :=
  let c1 :=
    if maxSize ≤ cache.length ∧ mapContains cache k = false then
      match cache.head? with
      | some p => mapDelete cache p.1
      | none => cache
    else cache
  mapSet c1 k e

/-- Outcome of one DynamoDB `GetCommand` on the tenant table: the item
(or its absence), or a thrown service error. -/
inductive StoreFetch
  | ok : Option TenantConfig → StoreFetch
  | err
deriving DecidableEq, Repr

/-- `getTenantCached` from tenant-registry `index.ts` (the variant imported
by the control plane).  The cache, the fetch outcome and the clock are
explicit parameters; a store error propagates as `Except.error` because
`getTenant` re-throws and this function has no handler.  Returns the result
together with the cache after the call. -/
def registryGetTenantCached (maxSize : Nat) (cache : List (Int × CacheEntry))
    (store : StoreFetch) (now : Nat) (installationId : Int) :
    Except Unit (Option TenantConfig) × List (Int × CacheEntry) :=
  let hit : Option TenantConfig :=
    match mapGet cache installationId with
    | some cached => if cached.expiry > now then some cached.tenant else none
    | none => none
  match hit with
  | some t => (.ok (some t), cache)
  | none =>
    match store with
    | .err => (.error (), cache)
    | .ok none => (.ok none, mapDelete cache installationId)
    | .ok (some tenant) =>
      (.ok (some tenant), cachePopulate maxSize cache installationId
        { tenant := tenant, expiry := now + CACHE_TTL_MS })

end TenantSystem

namespace WebhookTenant

open TenantSystem

/-- `TenantLookupResult` from the webhook's `runners/tenant.ts`. -/
inductive TenantLookupResult
  | found : TenantConfig → TenantLookupResult
  | not_found
  | lookup_error
  | disabled
deriving DecidableEq, Repr

/-- `MAX_CACHE_SIZE = 1000` in the webhook's `runners/tenant.ts`. -/
def MAX_CACHE_SIZE : Nat := 1000

/-- `getTenantCached` from the webhook's `runners/tenant.ts` (graceful
degradation): cache hit short-circuits; `disabled` when no table is
configured; a store error becomes the non-fatal `lookup_error` outcome;
a missing item removes any stale cache entry and yields `not_found`. -/
def getTenantCached (cache : List (Int × CacheEntry)) (tableSet : Bool)
    (store : StoreFetch) (now : Nat) (installationId : Int) :
    TenantLookupResult × List (Int × CacheEntry) :=
  let hit : Option TenantConfig :=
    match mapGet cache installationId with
    | some cached => if cached.expiry > now then some cached.tenant else none
    | none => none
  match hit with
  | some t => (.found t, cache)
  | none =>
    if !tableSet then (.disabled, cache)
    else
      match store with
      | .err => (.lookup_error, cache)
      | .ok none => (.not_found, mapDelete cache installationId)
      | .ok (some tenant) =>
        (.found tenant, cachePopulate MAX_CACHE_SIZE cache installationId
          { tenant := tenant, expiry := now + CACHE_TTL_MS })

end WebhookTenant

namespace ControlPlaneTenant

open TenantSystem

/-- Which `TenantLookupError` was raised (distinguished by message text in
the source; all share the class `TenantLookupError`). -/
inductive TenantLookupErrorKind
  | missingTenantId
  | invalidFormat
  | notFound
  | fetchFailed
deriving DecidableEq, Repr

/-- `TenantLookupError` from control-plane `scale-runners/tenant.ts`:
carries the attempted identifier (`tenantId` field). -/
structure TenantLookupError where
  kind : TenantLookupErrorKind
  tenantId : String
deriving DecidableEq, Repr

/-- `lookupTenant` from control-plane `scale-runners/tenant.ts`: returns
`null` when multi-tenancy is not configured; otherwise delegates to the
registry's `getTenantCached` and fails closed — a missing tenant raises
`TenantLookupError` (not-found message), and any store error is wrapped in
`TenantLookupError` (fetch-failed message). -/
def lookupTenant (tableSet : Bool) (maxSize : Nat) (cache : List (Int × CacheEntry))
    (store : StoreFetch) (now : Nat) (installationId : Int) (identifier : String) :
    Except TenantLookupError (Option TenantConfig) × List (Int × CacheEntry) :=
  if !tableSet then (.ok none, cache)
  else
    let r := registryGetTenantCached maxSize cache store now installationId
    match r.1 with
    | .error _ => (.error ⟨.fetchFailed, identifier⟩, r.2)
    | .ok none => (.error ⟨.notFound, identifier⟩, r.2)
    | .ok (some t) => (.ok (some t), r.2)

/-- `parseDigits`: fold the longest leading run of decimal digits, `none`
when there is no leading digit (the `NaN` case of `parseInt`). -/
def parseDigits : List Char → Option Nat → Option Nat
  | [], acc => acc
  | c :: cs, acc =>
    if c.isDigit then parseDigits cs (some (10 * acc.getD 0 + (c.toNat - 48)))
    else acc

/-- JavaScript `parseInt(s, 10)`: skip leading whitespace, optional sign,
then the longest decimal-digit prefix; `none` models `NaN`. -/
def parseIntBase10 (s : String) : Option Int :=
  let cs := s.data.dropWhile (fun c => c = ' ' ∨ c = '\t' ∨ c = '\n' ∨ c = '\r')
  match cs with
  | '-' :: rest => (parseDigits rest none).map (fun n => -(n : Int))
  | '+' :: rest => (parseDigits rest none).map (fun n => (n : Int))
  | _ => (parseDigits cs none).map (fun n => (n : Int))

/-- `getTenantConfig` from control-plane `scale-runners/tenant.ts`
(fail-closed admission lookup): an empty `tenantId` (the only falsy string)
raises, an identifier `parseInt` cannot parse raises, and everything else
goes through `lookupTenant`. -/
def getTenantConfig (tableSet : Bool) (maxSize : Nat) (cache : List (Int × CacheEntry))
    (store : StoreFetch) (now : Nat) (tenantId : String) :
    Except TenantLookupError (Option TenantConfig) × List (Int × CacheEntry) :=
  if tenantId = "" then (.error ⟨.missingTenantId, ""⟩, cache)
  else
    match parseIntBase10 tenantId with
    | none => (.error ⟨.invalidFormat, tenantId⟩, cache)
    | some installationId => lookupTenant tableSet maxSize cache store now installationId tenantId

end ControlPlaneTenant

namespace Dispatch

/-- The `matchLabels` computation inside `canRunJob`
(webhook `runners/dispatch.ts`): lowercase every runner label, then in
check-all mode some alternative must contain every (lowercased) job label,
in check-any mode some alternative must contain at least one. -/
def canRunJobMatch (workflowJobLabels : List String)
    (runnerLabelsMatchers : List (List String)) (workflowLabelCheckAll : Bool) : Bool :=
  let ms := runnerLabelsMatchers.map (fun rl => rl.map (fun l => l.toLower))
  if workflowLabelCheckAll then
    ms.any (fun rl => workflowJobLabels.all (fun wl => rl.contains wl.toLower))
  else
    ms.any (fun rl => workflowJobLabels.any (fun wl => rl.contains wl.toLower))

/-- `canRunJob` from webhook `runners/dispatch.ts`:
`match = workflowJobLabels.length === 0 ? !matchLabels : matchLabels`. -/
def canRunJob (workflowJobLabels : List String)
    (runnerLabelsMatchers : List (List String)) (workflowLabelCheckAll : Bool) : Bool :=
  let matchLabels := canRunJobMatch workflowJobLabels runnerLabelsMatchers workflowLabelCheckAll
  if workflowJobLabels.length = 0 then !matchLabels else matchLabels

/-- `matcherConfig` member of `RunnerMatcherConfig` (`sqs.ts`). -/
structure RunnerMatcherDef where
  labelMatchers : List (List String)
  exactMatch : Bool
deriving DecidableEq, Repr

/-- One tier-queue entry of the webhook's matcher configuration. -/
structure RunnerMatcherConfig where
  id : String
  matcherConfig : RunnerMatcherDef
deriving DecidableEq, Repr

/-- The in-place sort at `dispatch.ts:105`:
`matcherConfig.sort((a, b) => a.exactMatch === b.exactMatch ? 0 : a.exactMatch ? -1 : 1)`.
`Array.prototype.sort` is stable, so sorting by this comparator is exactly
the partition that keeps every `exactMatch` queue (in original order) ahead
of every non-`exactMatch` queue (in original order). -/
def sortMatcherConfig (l : List RunnerMatcherConfig) : List RunnerMatcherConfig :=
  l.filter (fun q => q.matcherConfig.exactMatch)
    ++ l.filter (fun q => !q.matcherConfig.exactMatch)

/-- The queue-selection loop of `handleWorkflowJob`: the message is sent to
the first queue, in the sorted order, whose matcher accepts the job. -/
def selectQueue (labels : List String) (l : List RunnerMatcherConfig) :
    Option RunnerMatcherConfig :=
  (sortMatcherConfig l).find?
    (fun q => canRunJob labels q.matcherConfig.labelMatchers q.matcherConfig.exactMatch)

end Dispatch

namespace TenantSystem

/-! ### Registry CRUD (tenant-registry `index.ts`), store modelled as an
insertion-ordered table with DynamoDB conditional-write semantics. -/

/-- `CreateTenantInput` from tenant-registry `index.ts`. -/
structure CreateTenantInput where
  installation_id : Int
  org_name : String
  org_type : OrgType
  tier : Option TenantTier
  metadata : Option TenantMetadata
deriving DecidableEq, Repr

/-- The record `createTenant` builds before the conditional put:
`tier = input.tier || 'small'`, `status: 'active'`,
`max_runners: TIER_LIMITS[tier]`, `created_at = updated_at = now`. -/
def createTenantRecord (input : CreateTenantInput) (now : String) : TenantConfig :=
  let tier := input.tier.getD .small
  { installation_id := input.installation_id
    org_name := input.org_name
    org_type := input.org_type
    status := .active
    tier := tier
    max_runners := TIER_LIMITS tier
    created_at := now
    updated_at := now
    metadata := input.metadata }

/-- `createTenant`: `PutCommand` with
`ConditionExpression: 'attribute_not_exists(installation_id)'`; on a
`ConditionalCheckFailedException` the pre-existing record is fetched with
`getTenant` and returned instead.  Returns the caller-visible record and
the table afterwards. -/
def createTenant (store : List (Int × TenantConfig)) (input : CreateTenantInput)
    (now : String) : TenantConfig × List (Int × TenantConfig) :=
  let tenant := createTenantRecord input now
  match mapGet store input.installation_id with
  | none => (tenant, mapSet store input.installation_id tenant)
  | some existing => (existing, store)

/-- `UpdateTenantInput` from tenant-registry `index.ts`. -/
structure UpdateTenantInput where
  status : Option TenantStatus
  tier : Option TenantTier
  max_runners : Option Nat
deriving DecidableEq, Repr

/-- The `SET` expression `updateTenant` builds: `updated_at = :now` always;
`status` and `tier` when supplied; `max_runners` from the explicit value
when supplied, otherwise recomputed from `TIER_LIMITS` when `tier` is
supplied, otherwise untouched. -/
def applyUpdate (t : TenantConfig) (updates : UpdateTenantInput) (now : String) :
    TenantConfig :=
  let t1 := { t with updated_at := now }
  let t2 := match updates.status with
    | some s => { t1 with status := s }
    | none => t1
  let t3 := match updates.tier with
    | some tr => { t2 with tier := tr }
    | none => t2
  match updates.max_runners with
  | some m => { t3 with max_runners := m }
  | none =>
    match updates.tier with
    | some tr => { t3 with max_runners := TIER_LIMITS tr }
    | none => t3

/-- `updateTenant`: `UpdateCommand` with
`ConditionExpression: 'attribute_exists(installation_id)'`; a
`ConditionalCheckFailedException` (record absent) returns `null` rather
than raising. -/
def updateTenant (store : List (Int × TenantConfig)) (installationId : Int)
    (updates : UpdateTenantInput) (now : String) :
    Option TenantConfig × List (Int × TenantConfig) :=
  match mapGet store installationId with
  | none => (none, store)
  | some t =>
    let t2 := applyUpdate t updates now
    (some t2, mapSet store installationId t2)

end TenantSystem

namespace InstallationHandler

open TenantSystem

/-- EC2 `instance-state-name` values. -/
inductive InstanceState
  | pending
  | running
  | shuttingDown
  | terminated
  | stopping
  | stopped
deriving DecidableEq, Repr

/-- One EC2 instance as seen by `terminateRunnersForTenant`: its id, the
value of its `ghr:tenant_id` tag (if tagged), and its state. -/
structure Ec2Instance where
  instanceId : String
  tenantTag : Option String
  state : InstanceState
deriving DecidableEq, Repr

/-- The EC2 collaborator: the fleet plus whether the describe or terminate
call throws. -/
structure Ec2World where
  instances : List Ec2Instance
  describeFails : Bool
  terminateFails : Bool
deriving DecidableEq, Repr

/-- The `instance-state-name` filter values of the `DescribeInstancesCommand`. -/
def activeStates : List InstanceState := [.pending, .running, .stopping, .stopped]

/-- The instance ids returned by the describe call: exactly the instances
whose `ghr:tenant_id` tag equals the tenant id and whose state is in
`activeStates`. -/
def runnersForTenant (instances : List Ec2Instance) (idStr : String) : List String :=
  (instances.filter
    (fun i => decide (i.tenantTag = some idStr ∧ i.state ∈ activeStates))).map
    (fun i => i.instanceId)

/-- The body of the `try` block in `terminateRunnersForTenant`: describe
(may throw), early return on an empty id list, then one bulk
`TerminateInstancesCommand` (may throw).  The value is the list of
successful terminate invocations. -/
def terminateRunnersCore (w : Ec2World) (idStr : String) :
    Except Unit (List (List String)) :=
  if w.describeFails then .error ()
  else
    let instanceIds := runnersForTenant w.instances idStr
    if instanceIds.isEmpty then .ok []
    else if w.terminateFails then .error ()
    else .ok [instanceIds]

/-- `terminateRunnersForTenant`: the whole body is wrapped in
`try { ... } catch { logger.error(...); }` — a failure is logged and
swallowed, never re-thrown. -/
def terminateRunnersForTenant (w : Ec2World) (idStr : String) : List (List String) :=
  match terminateRunnersCore w idStr with
  | .ok calls => calls
  | .error _ => []

/-- The mutable world the installation handler touches. -/
structure World where
  store : List (Int × TenantConfig)
  cache : List (Int × CacheEntry)
  ec2 : Ec2World
deriving DecidableEq, Repr

/-- `handleInstallationDeleted`: `updateTenant(id, { status: 'deleted' })`,
`invalidateTenantCache(id)` (a `Map.delete`), then the best-effort
`terminateRunnersForTenant(id)`.  Returns the world afterwards and the
terminate calls issued. -/
def handleInstallationDeleted (w : World) (installationId : Int) (now : String) :
    World × List (List String) :=
  let r := updateTenant w.store installationId
    { status := some .deleted, tier := none, max_runners := none } now
  let cache2 := mapDelete w.cache installationId
  let calls := terminateRunnersForTenant w.ec2 (toString installationId)
  ({ store := r.2, cache := cache2, ec2 := w.ec2 }, calls)

end InstallationHandler

namespace Samples

open TenantSystem InstallationHandler

/-- A concrete tenant record used to instantiate the theorems below. -/
def sampleTenant (n : Int) : TenantConfig :=
  { installation_id := n
    org_name := "org"
    org_type := .organization
    status := .active
    tier := .small
    max_runners := 2
    created_at := "t0"
    updated_at := "t0"
    metadata := none }

/-- A concrete cache entry. -/
def sampleEntry (n : Int) (e : Nat) : CacheEntry := ⟨sampleTenant n, e⟩

/-- A concrete create input with no tier supplied. -/
def sampleInput : CreateTenantInput :=
  { installation_id := 5
    org_name := "acme"
    org_type := .organization
    tier := none
    metadata := none }

/-- A concrete queue configuration that is not exact-match. -/
def sampleAnyQueue : Dispatch.RunnerMatcherConfig := ⟨"any", ⟨[["linux"]], false⟩⟩

/-- A concrete queue configuration that is exact-match. -/
def sampleSmallQueue : Dispatch.RunnerMatcherConfig := ⟨"small", ⟨[["linux"]], true⟩⟩

/-- A concrete world for the installation handler: one tenant, one cached
entry, two of three instances tagged for the tenant but only one in an
active state. -/
def sampleWorld : World :=
  { store := [(5, sampleTenant 5)]
    cache := [(5, sampleEntry 5 99)]
    ec2 :=
      { instances :=
          [⟨"i-1", some "5", .running⟩, ⟨"i-2", some "5", .terminated⟩,
           ⟨"i-3", some "6", .running⟩]
        describeFails := false
        terminateFails := false } }

end Samples

/-! ## Helper lemmas about the map model -/

namespace TenantSystem

theorem mapGet_mapSet_self {α : Type} (m : List (Int × α)) (k : Int) (v : α) :
    mapGet (mapSet m k v) k = some v := by
  induction m with
  | nil => simp [mapSet, mapGet]
  | cons p ps ih =>
    by_cases h : p.1 = k
    · simp [mapSet, h, mapGet]
    · simp [mapSet, h, mapGet, ih]

theorem mapGet_mapSet_ne {α : Type} (m : List (Int × α)) (k j : Int) (v : α) (h : j ≠ k) :
    mapGet (mapSet m k v) j = mapGet m j := by
  induction m with
  | nil => simp [mapSet, mapGet, Ne.symm h]
  | cons p ps ih =>
    by_cases hp : p.1 = k
    · simp [mapSet, hp, mapGet, Ne.symm h, hp ▸ Ne.symm h]
    · by_cases hj : p.1 = j
      · simp [mapSet, hp, mapGet, hj, h]
      · simp [mapSet, hp, mapGet, hj, ih]

theorem mapGet_mapDelete_self {α : Type} (m : List (Int × α)) (k : Int) :
    mapGet (mapDelete m k) k = none := by
  induction m with
  | nil => simp [mapDelete, mapGet]
  | cons p ps ih =>
    by_cases h : p.1 = k
    · simp [mapDelete, h, ih]
    · simp [mapDelete, h, mapGet, ih]

theorem mapDelete_of_get_none {α : Type} (m : List (Int × α)) (k : Int)
    (h : mapGet m k = none) : mapDelete m k = m := by
  induction m with
  | nil => rfl
  | cons p ps ih =>
    by_cases hp : p.1 = k
    · simp [mapGet, hp] at h
    · simp [mapGet, hp] at h
      simp [mapDelete, hp, ih h]

theorem mapSet_of_get_none {α : Type} (m : List (Int × α)) (k : Int) (v : α)
    (h : mapGet m k = none) : mapSet m k v = m ++ [(k, v)] := by
  induction m with
  | nil => rfl
  | cons p ps ih =>
    by_cases hp : p.1 = k
    · simp [mapGet, hp] at h
    · simp [mapGet, hp] at h
      simp [mapSet, hp, ih h]

theorem mapGet_none_of_not_mem_keys {α : Type} (m : List (Int × α)) (k : Int)
    (h : k ∉ m.map Prod.fst) : mapGet m k = none := by
  induction m with
  | nil => rfl
  | cons p ps ih =>
    simp only [List.map_cons, List.mem_cons] at h
    push_neg at h
    simp [mapGet, Ne.symm h.1, ih h.2]

theorem mapDelete_length_le {α : Type} (m : List (Int × α)) (k : Int) :
    (mapDelete m k).length ≤ m.length := by
  induction m with
  | nil => simp [mapDelete]
  | cons p ps ih =>
    by_cases h : p.1 = k
    · simp only [mapDelete, h, if_pos rfl]
      exact Nat.le_succ_of_le ih
    · simp only [mapDelete, h, if_neg h, List.length_cons]
      exact Nat.succ_le_succ ih

theorem mapGet_mapDelete_none {α : Type} (m : List (Int × α)) (k j : Int)
    (h : mapGet m k = none) : mapGet (mapDelete m j) k = none := by
  induction m with
  | nil => rfl
  | cons p ps ih =>
    by_cases hp : p.1 = k
    · simp [mapGet, hp] at h
    · simp [mapGet, hp] at h
      by_cases hj : p.1 = j
      · simp [mapDelete, hj, ih h]
      · simp [mapDelete, hj, mapGet, hp, ih h]

theorem mapSet_length_of_contains {α : Type} (m : List (Int × α)) (k : Int) (v : α)
    (h : mapGet m k ≠ none) : (mapSet m k v).length = m.length := by
  induction m with
  | nil => simp [mapGet] at h
  | cons p ps ih =>
    by_cases hp : p.1 = k
    · simp [mapSet, hp]
    · simp [mapGet, hp] at h
      simp [mapSet, hp, ih h]

end TenantSystem

/-! ## Claim theorems -/

open TenantSystem

/-- C4: for every tier configuration (label-set alternatives plus
match-all/match-any mode), if the job requests zero labels then `canRunJob`
returns the negation of the computed match result (`matchLabels`): the tier
is reported as a match exactly when the ordinary match computation over the
alternatives evaluates to false. -/
theorem canRunJob_zero_labels_inverted (runnerLabelsMatchers : List (List String))
    (workflowLabelCheckAll : Bool) :
    Dispatch.canRunJob [] runnerLabelsMatchers workflowLabelCheckAll
      = !Dispatch.canRunJobMatch [] runnerLabelsMatchers workflowLabelCheckAll := by
  simp [Dispatch.canRunJob]

/-- C10: a job requesting zero labels matches a tier iff the tier is in
match-any mode or its list of label-set alternatives is empty; so a
zero-label job never matches a match-all tier with at least one
alternative, and always matches every match-any tier. -/
theorem canRunJob_zero_labels_characterization (runnerLabelsMatchers : List (List String))
    (workflowLabelCheckAll : Bool) :
    Dispatch.canRunJob [] runnerLabelsMatchers workflowLabelCheckAll
      = (!workflowLabelCheckAll || runnerLabelsMatchers.isEmpty) := by
  cases workflowLabelCheckAll <;> cases runnerLabelsMatchers <;>
    simp [Dispatch.canRunJob, Dispatch.canRunJobMatch]

/-- C6: the record produced by `createTenant` (when the conditional write
succeeds) has `status = active`, tier equal to the input tier or the
default small, `max_runners` equal to the tier table's default for that
tier (small 2, medium 5, large 10), and `created_at = updated_at`; the
stored record is the returned record. -/
theorem createTenant_record_fields (store : List (Int × TenantConfig))
    (input : CreateTenantInput) (now : String)
    (habs : mapGet store input.installation_id = none) :
    (createTenant store input now).1.status = .active
    ∧ (createTenant store input now).1.tier = input.tier.getD .small
    ∧ (createTenant store input now).1.max_runners = TIER_LIMITS (input.tier.getD .small)
    ∧ (createTenant store input now).1.created_at = now
    ∧ (createTenant store input now).1.updated_at = now
    ∧ TIER_LIMITS .small = 2 ∧ TIER_LIMITS .medium = 5 ∧ TIER_LIMITS .large = 10
    ∧ mapGet (createTenant store input now).2 input.installation_id
        = some (createTenant store input now).1 := by
  simp [createTenant, habs, createTenantRecord, mapGet_mapSet_self, TIER_LIMITS]

/-- C6 witness at a concrete input. -/
theorem createTenant_record_fields_witness :
    (createTenant [] Samples.sampleInput "t0").1.status = .active
    ∧ (createTenant [] Samples.sampleInput "t0").1.tier
        = Samples.sampleInput.tier.getD .small
    ∧ (createTenant [] Samples.sampleInput "t0").1.max_runners
        = TIER_LIMITS (Samples.sampleInput.tier.getD .small)
    ∧ (createTenant [] Samples.sampleInput "t0").1.created_at = "t0"
    ∧ (createTenant [] Samples.sampleInput "t0").1.updated_at = "t0"
    ∧ TIER_LIMITS .small = 2 ∧ TIER_LIMITS .medium = 5 ∧ TIER_LIMITS .large = 10
    ∧ mapGet (createTenant [] Samples.sampleInput "t0").2
        Samples.sampleInput.installation_id
        = some (createTenant [] Samples.sampleInput "t0").1 :=
  createTenant_record_fields [] Samples.sampleInput "t0" rfl

/-- C5: `createTenant` is idempotent per `installation_id`: the write only
happens when the key is absent; when a record with the same key already
exists the pre-existing record is returned and the table is unchanged; the
returned record always equals the stored record; and a repeated create
returns the first create's record without changing the table. -/
theorem createTenant_idempotent (store : List (Int × TenantConfig))
    (input : CreateTenantInput) (now now2 : String) :
    (∀ existing, mapGet store input.installation_id = some existing →
       createTenant store input now = (existing, store))
    ∧ (mapGet store input.installation_id = none →
       (createTenant store input now).2
         = mapSet store input.installation_id (createTenantRecord input now))
    ∧ mapGet (createTenant store input now).2 input.installation_id
        = some (createTenant store input now).1
    ∧ createTenant (createTenant store input now).2 input now2
        = ((createTenant store input now).1, (createTenant store input now).2) := by
  refine ⟨?_, ?_, ?_, ?_⟩
  · intro existing hex
    simp [createTenant, hex]
  · intro habs
    simp [createTenant, habs]
  · rcases hget : mapGet store input.installation_id with _ | existing
    · simp [createTenant, hget, mapGet_mapSet_self]
    · simp [createTenant, hget]
  · rcases hget : mapGet store input.installation_id with _ | existing
    · simp [createTenant, hget, mapGet_mapSet_self]
    · simp [createTenant, hget]

/-- C5 witness at a concrete input. -/
theorem createTenant_idempotent_witness :
    (createTenant [] Samples.sampleInput "t0").2
      = mapSet [] Samples.sampleInput.installation_id
          (createTenantRecord Samples.sampleInput "t0") :=
  (createTenant_idempotent [] Samples.sampleInput "t0" "t1").2.1 rfl

/-- C7: `updateTenant` always sets `updated_at` on the mutated record; a
tier change without an explicit `max_runners` recomputes `max_runners`
from the tier table; and when no record exists for the key the call
returns the NotFound result (`none`) with the table unchanged, rather than
raising. -/
theorem updateTenant_contract (store : List (Int × TenantConfig)) (installationId : Int)
    (updates : UpdateTenantInput) (now : String) :
    (mapGet store installationId = none →
       updateTenant store installationId updates now = (none, store))
    ∧ (∀ t2, (updateTenant store installationId updates now).1 = some t2 →
       t2.updated_at = now)
    ∧ (∀ tr, updates.tier = some tr → updates.max_runners = none →
       ∀ t2, (updateTenant store installationId updates now).1 = some t2 →
       t2.max_runners = TIER_LIMITS tr) := by
  refine ⟨?_, ?_, ?_⟩
  · intro habs
    simp [updateTenant, habs]
  · intro t2 h2
    rcases hget : mapGet store installationId with _ | t
    · simp [updateTenant, hget] at h2
    · simp [updateTenant, hget] at h2
      subst h2
      rcases updates with ⟨s, tr, m⟩
      rcases s with _ | s <;> rcases tr with _ | tr <;> rcases m with _ | m <;>
        simp [applyUpdate]
  · intro tr htr hm t2 h2
    rcases hget : mapGet store installationId with _ | t
    · simp [updateTenant, hget] at h2
    · simp [updateTenant, hget] at h2
      subst h2
      rcases updates with ⟨s, tr2, m⟩
      simp_all
      rcases s with _ | s <;> simp [applyUpdate]

/-- C7 witness at a concrete input: a tier-only update recomputes the
limit, and an update of an absent key returns `none`. -/
theorem updateTenant_contract_witness :
    updateTenant [] 5 ⟨none, some .large, none⟩ "t1" = (none, [])
    ∧ ∀ t2,
      (updateTenant [(5, Samples.sampleTenant 5)] 5 ⟨none, some .large, none⟩ "t1").1
        = some t2 → t2.max_runners = TIER_LIMITS .large :=
  ⟨(updateTenant_contract [] 5 ⟨none, some .large, none⟩ "t1").1 rfl,
   fun t2 h2 =>
     (updateTenant_contract [(5, Samples.sampleTenant 5)] 5
       ⟨none, some .large, none⟩ "t1").2.2 .large rfl rfl t2 h2⟩

/-- With no fresh cache entry for the key at the given time, the registry
lookup must go to the store. -/
def noFreshEntry (cache : List (Int × TenantSystem.CacheEntry)) (now : Nat) (k : Int) :
    Prop :=
  ∀ e, TenantSystem.mapGet cache k = some e → ¬ e.expiry > now

/-- C1: under an identical backing-store failure on a lookup that reaches
the store, the ingress (graceful-degradation) lookup returns the non-fatal
`lookup_error` outcome, while the admission (fail-closed) lookup for the
same tenant raises `TenantLookupError` (fetch-failed), fatal to the
message. -/
theorem dual_policy_store_failure (maxSize : Nat)
    (cache : List (Int × TenantSystem.CacheEntry)) (now : Nat)
    (installationId : Int) (s : String) (hs : s ≠ "")
    (hparse : ControlPlaneTenant.parseIntBase10 s = some installationId)
    (hmiss : noFreshEntry cache now installationId) :
    (WebhookTenant.getTenantCached cache true .err now installationId).1
      = .lookup_error
    ∧ (ControlPlaneTenant.getTenantConfig true maxSize cache .err now s).1
      = .error ⟨.fetchFailed, s⟩ := by
  have hhit :
      (match mapGet cache installationId with
        | some cached => if cached.expiry > now then some cached.tenant else none
        | none => (none : Option TenantConfig)) = none := by
    rcases hget : mapGet cache installationId with _ | e
    · rfl
    · simp [hmiss e hget]
  constructor
  · simp only [WebhookTenant.getTenantCached, hhit]
    rfl
  · simp only [ControlPlaneTenant.getTenantConfig, if_neg hs, hparse,
      ControlPlaneTenant.lookupTenant, TenantSystem.registryGetTenantCached, hhit]
    rfl

/-- C1 witness: empty cache, tenant 42. -/
theorem dual_policy_store_failure_witness :
    (WebhookTenant.getTenantCached [] true .err 0 42).1
      = .lookup_error
    ∧ (ControlPlaneTenant.getTenantConfig true 1000 [] .err 0 "42").1
      = .error ⟨.fetchFailed, "42"⟩ :=
  dual_policy_store_failure 1000 [] 0 42 "42" (by decide) (by decide)
    (fun e h => by simp [TenantSystem.mapGet] at h)

/-- C2: at the fail-closed admission boundary with multi-tenancy
configured, `getTenantConfig` never returns a degraded `none` success, and
each failing resolution — empty tenant id, unparsable tenant id, tenant
absent from the store, or store error — raises `TenantLookupError`
carrying the attempted identifier. -/
theorem getTenantConfig_fail_closed (maxSize : Nat)
    (cache : List (Int × TenantSystem.CacheEntry)) (store : TenantSystem.StoreFetch)
    (now : Nat) :
    (∀ s, (ControlPlaneTenant.getTenantConfig true maxSize cache store now s).1
        ≠ .ok none)
    ∧ (ControlPlaneTenant.getTenantConfig true maxSize cache store now "").1
        = .error ⟨.missingTenantId, ""⟩
    ∧ (∀ s, s ≠ "" → ControlPlaneTenant.parseIntBase10 s = none →
        (ControlPlaneTenant.getTenantConfig true maxSize cache store now s).1
          = .error ⟨.invalidFormat, s⟩)
    ∧ (∀ s k, s ≠ "" → ControlPlaneTenant.parseIntBase10 s = some k →
        noFreshEntry cache now k → store = .ok none →
        (ControlPlaneTenant.getTenantConfig true maxSize cache store now s).1
          = .error ⟨.notFound, s⟩)
    ∧ (∀ s k, s ≠ "" → ControlPlaneTenant.parseIntBase10 s = some k →
        noFreshEntry cache now k → store = .err →
        (ControlPlaneTenant.getTenantConfig true maxSize cache store now s).1
          = .error ⟨.fetchFailed, s⟩) := by
  have hhit : ∀ k, noFreshEntry cache now k →
      (match mapGet cache k with
        | some cached => if cached.expiry > now then some cached.tenant else none
        | none => (none : Option TenantConfig)) = none := by
    intro k hk
    rcases hget : mapGet cache k with _ | e
    · rfl
    · simp [hk e hget]
  refine ⟨?_, ?_, ?_, ?_, ?_⟩
  · intro s
    by_cases hs : s = ""
    · subst hs
      simp [ControlPlaneTenant.getTenantConfig]
    · rcases hp : ControlPlaneTenant.parseIntBase10 s with _ | k
      · simp [ControlPlaneTenant.getTenantConfig, hs, hp]
      · simp only [ControlPlaneTenant.getTenantConfig, if_neg hs, hp]
        simp only [ControlPlaneTenant.lookupTenant, Bool.not_true]
        rcases hr : (registryGetTenantCached maxSize cache store now k).1 with _ | t
        · simp [hr]
        · rcases t with _ | t
          · simp [hr]
          · simp [hr]
  · simp [ControlPlaneTenant.getTenantConfig]
  · intro s hs hp
    simp [ControlPlaneTenant.getTenantConfig, hs, hp]
  · intro s k hs hp hmiss hst
    subst hst
    simp only [ControlPlaneTenant.getTenantConfig, if_neg hs, hp,
      ControlPlaneTenant.lookupTenant, TenantSystem.registryGetTenantCached, hhit k hmiss]
    rfl
  · intro s k hs hp hmiss hst
    subst hst
    simp only [ControlPlaneTenant.getTenantConfig, if_neg hs, hp,
      ControlPlaneTenant.lookupTenant, TenantSystem.registryGetTenantCached, hhit k hmiss]
    rfl

/-- C2 witness: uses the invalid-format and not-found clauses at concrete
inputs. -/
theorem getTenantConfig_fail_closed_witness :
    (ControlPlaneTenant.getTenantConfig true 1000 [] (.ok none) 0 "abc").1
      = .error ⟨.invalidFormat, "abc"⟩
    ∧ (ControlPlaneTenant.getTenantConfig true 1000 [] (.ok none) 0 "7").1
      = .error ⟨.notFound, "7"⟩ :=
  ⟨(getTenantConfig_fail_closed 1000 [] (.ok none) 0).2.2.1 "abc" (by decide) (by decide),
   (getTenantConfig_fail_closed 1000 [] (.ok none) 0).2.2.2.1 "7" 7 (by decide) (by decide)
     (fun e h => by simp [TenantSystem.mapGet] at h) rfl⟩

/-- Helper: populating the cache never grows it past a positive capacity. -/
theorem cachePopulate_length_le (maxSize : Nat) (cache : List (Int × CacheEntry))
    (k : Int) (e : CacheEntry) (h1 : 1 ≤ maxSize) (hle : cache.length ≤ maxSize) :
    (cachePopulate maxSize cache k e).length ≤ maxSize := by
  by_cases hc : mapGet cache k = none
  · by_cases hfull : maxSize ≤ cache.length
    · have heq : cache.length = maxSize := Nat.le_antisymm hle hfull
      rcases cache with _ | ⟨p, ps⟩
      · simp at heq
        omega
      · have hcond : maxSize ≤ (p :: ps).length ∧ mapContains (p :: ps) k = false := by
          constructor
          · exact hfull
          · simp [mapContains, hc]
        simp only [cachePopulate, if_pos hcond, List.head?_cons]
        have hdel : mapDelete (p :: ps) p.1 = mapDelete ps p.1 := by
          simp [mapDelete]
        have hget2 : mapGet (mapDelete (p :: ps) p.1) k = none :=
          mapGet_mapDelete_none _ _ _ hc
        rw [mapSet_of_get_none _ _ _ hget2]
        rw [hdel] at hget2 ⊢
        have := mapDelete_length_le ps p.1
        simp only [List.length_append, List.length_cons, List.length_nil] at *
        omega
    · have hcond : ¬ (maxSize ≤ cache.length ∧ mapContains cache k = false) := by
        intro hcontra
        exact hfull hcontra.1
      simp only [cachePopulate, if_neg hcond]
      rw [mapSet_of_get_none _ _ _ hc]
      simp only [List.length_append, List.length_cons, List.length_nil]
      omega
  · have hcond : ¬ (maxSize ≤ cache.length ∧ mapContains cache k = false) := by
      intro hcontra
      rcases hcontra with ⟨-, hcf⟩
      simp [mapContains, Option.isSome_iff_ne_none, hc] at hcf
    simp only [cachePopulate, if_neg hcond]
    rw [mapSet_length_of_contains _ _ _ hc]
    exact hle

/-- C3: for the bounded tenant cache of capacity N (with distinct keys):
inserting a key not currently present into a full cache evicts exactly the
oldest-inserted entry (the head of the insertion-order list) and keeps
everything else in order; populating a key that is already present evicts
nothing else (same size, every other key's entry untouched); and a lookup
through `registryGetTenantCached` never grows the cache past N. -/
theorem cache_eviction_policy (maxSize : Nat) (cache : List (Int × CacheEntry))
    (k : Int) (e : CacheEntry) (hnodup : (cache.map Prod.fst).Nodup) :
    (cache.length = maxSize → mapGet cache k = none →
       cachePopulate maxSize cache k e = cache.tail ++ [(k, e)])
    ∧ (mapGet cache k ≠ none →
       (cachePopulate maxSize cache k e).length = cache.length
       ∧ ∀ j, j ≠ k → mapGet (cachePopulate maxSize cache k e) j = mapGet cache j)
    ∧ (1 ≤ maxSize → cache.length ≤ maxSize →
       ∀ store now,
         ((registryGetTenantCached maxSize cache store now k).2).length ≤ maxSize) := by
  refine ⟨?_, ?_, ?_⟩
  · intro hfull habs
    have hcond : maxSize ≤ cache.length ∧ mapContains cache k = false := by
      constructor
      · omega
      · simp [mapContains, habs]
    rcases cache with _ | ⟨p, ps⟩
    · simp only [cachePopulate, if_pos hcond, List.head?_nil]
      rfl
    · simp only [cachePopulate, if_pos hcond, List.head?_cons]
      have hdel : mapDelete (p :: ps) p.1 = ps := by
        have hpn : p.1 ∉ ps.map Prod.fst := by
          simp only [List.map_cons, List.nodup_cons] at hnodup
          exact hnodup.1
        have : mapGet ps p.1 = none := mapGet_none_of_not_mem_keys ps p.1 hpn
        simp [mapDelete, mapDelete_of_get_none ps p.1 this]
      rw [hdel]
      have hps : mapGet ps k = none := by
        by_cases hp : p.1 = k
        · simp [mapGet, hp] at habs
        · simp [mapGet, hp] at habs
          exact habs
      rw [mapSet_of_get_none ps k e hps]
      rfl
  · intro hcontains
    have hcond : ¬ (maxSize ≤ cache.length ∧ mapContains cache k = false) := by
      intro hcontra
      rcases hcontra with ⟨-, hcf⟩
      simp [mapContains, Option.isSome_iff_ne_none, hcontains] at hcf
    constructor
    · simp only [cachePopulate, if_neg hcond]
      exact mapSet_length_of_contains _ _ _ hcontains
    · intro j hj
      simp only [cachePopulate, if_neg hcond]
      exact mapGet_mapSet_ne _ _ _ _ hj
  · intro h1 hle store now
    simp only [registryGetTenantCached]
    rcases hget : mapGet cache k with _ | c
    · rcases store with t | _
      · rcases t with _ | t
        · simpa using Nat.le_trans (mapDelete_length_le cache k) hle
        · simpa using cachePopulate_length_le maxSize cache k _ h1 hle
      · simpa using hle
    · by_cases hexp : c.expiry > now
      · simp [hget, hexp, hle]
      · rcases store with t | _
        · rcases t with _ | t
          · simp only [hget, if_neg hexp]
            simpa using Nat.le_trans (mapDelete_length_le cache k) hle
          · simp only [hget, if_neg hexp]
            simpa using cachePopulate_length_le maxSize cache k _ h1 hle
        · simp [hget, hexp, hle]

/-- C3 witness: capacity 2, two entries, inserting a third evicts the head;
refreshing an existing key keeps the size. -/
theorem cache_eviction_policy_witness :
    cachePopulate 2 [(1, Samples.sampleEntry 1 10), (2, Samples.sampleEntry 2 10)] 3
        (Samples.sampleEntry 3 70)
      = [(1, Samples.sampleEntry 1 10), (2, Samples.sampleEntry 2 10)].tail
          ++ [(3, Samples.sampleEntry 3 70)]
    ∧ (cachePopulate 2 [(1, Samples.sampleEntry 1 10), (2, Samples.sampleEntry 2 10)] 1
        (Samples.sampleEntry 1 70)).length
      = [(1, Samples.sampleEntry 1 10), (2, Samples.sampleEntry 2 10)].length :=
  ⟨(cache_eviction_policy 2 [(1, Samples.sampleEntry 1 10), (2, Samples.sampleEntry 2 10)]
      3 (Samples.sampleEntry 3 70) (by decide)).1 rfl (by decide),
   ((cache_eviction_policy 2 [(1, Samples.sampleEntry 1 10), (2, Samples.sampleEntry 2 10)]
      1 (Samples.sampleEntry 1 70) (by decide)).2.1 (by decide)).1⟩

/-- C8: the dispatcher's sort places every exact-match tier before every
non-exact tier (after dropping the leading exact-match run nothing
exact-match remains), and the job goes to the first tier in that order
accepted by `canRunJob` — so whenever some exact-match tier in the
configuration matches the job, the selected tier is exact-match and
matches. -/
theorem exact_match_precedence (labels : List String)
    (l : List Dispatch.RunnerMatcherConfig) (q : Dispatch.RunnerMatcherConfig)
    (hq : q ∈ l) (hx : q.matcherConfig.exactMatch = true)
    (hm : Dispatch.canRunJob labels q.matcherConfig.labelMatchers true = true) :
    (((Dispatch.sortMatcherConfig l).dropWhile
        (fun r => r.matcherConfig.exactMatch)).all
        (fun r => !r.matcherConfig.exactMatch)) = true
    ∧ ∃ q2, Dispatch.selectQueue labels l = some q2
        ∧ q2.matcherConfig.exactMatch = true
        ∧ Dispatch.canRunJob labels q2.matcherConfig.labelMatchers
            q2.matcherConfig.exactMatch = true := by
  constructor
  · have hA : (l.filter (fun r => r.matcherConfig.exactMatch)).dropWhile
        (fun r => r.matcherConfig.exactMatch) = [] := by
      rw [List.dropWhile_eq_nil_iff]
      intro x hxm
      exact (List.mem_filter.mp hxm).2
    rw [List.all_eq_true]
    intro r hr
    simp only [Dispatch.sortMatcherConfig, List.dropWhile_append, hA,
      List.isEmpty_nil, if_pos] at hr
    have hrB : r ∈ l.filter (fun r => !r.matcherConfig.exactMatch) :=
      (List.dropWhile_sublist _).mem hr
    exact (List.mem_filter.mp hrB).2
  · have hqA : q ∈ l.filter (fun r => r.matcherConfig.exactMatch) :=
      List.mem_filter.mpr ⟨hq, hx⟩
    have hpq : (fun r => Dispatch.canRunJob labels r.matcherConfig.labelMatchers
        r.matcherConfig.exactMatch) q = true := by
      show Dispatch.canRunJob labels q.matcherConfig.labelMatchers
        q.matcherConfig.exactMatch = true
      rw [hx]
      exact hm
    have hAsome : ((l.filter (fun r => r.matcherConfig.exactMatch)).find?
        (fun r => Dispatch.canRunJob labels r.matcherConfig.labelMatchers
          r.matcherConfig.exactMatch)).isSome := by
      rw [List.find?_isSome]
      exact ⟨q, hqA, hpq⟩
    obtain ⟨q2, hq2⟩ := Option.isSome_iff_exists.mp hAsome
    have hq2A : q2 ∈ l.filter (fun r => r.matcherConfig.exactMatch) :=
      List.mem_of_find?_eq_some hq2
    have hq2p := @List.find?_some _
      (fun r => Dispatch.canRunJob labels r.matcherConfig.labelMatchers
        r.matcherConfig.exactMatch) q2 _ hq2
    refine ⟨q2, ?_, (List.mem_filter.mp hq2A).2, hq2p⟩
    simp [Dispatch.selectQueue, Dispatch.sortMatcherConfig, List.find?_append, hq2]

/-- C8 witness: a non-exact catch-all listed first and an exact tier listed
second; the exact tier is selected. -/
theorem exact_match_precedence_witness :
    ∃ q2, Dispatch.selectQueue ["linux"] [Samples.sampleAnyQueue, Samples.sampleSmallQueue]
        = some q2
      ∧ q2.matcherConfig.exactMatch = true
      ∧ Dispatch.canRunJob ["linux"] q2.matcherConfig.labelMatchers
          q2.matcherConfig.exactMatch = true :=
  (exact_match_precedence ["linux"] [Samples.sampleAnyQueue, Samples.sampleSmallQueue]
    Samples.sampleSmallQueue (by decide) (by decide)
    (by simp [Dispatch.canRunJob, Dispatch.canRunJobMatch, Samples.sampleSmallQueue])).2

/-- C9: on a `deleted` installation event the handler marks the stored
tenant `deleted` (bumping `updated_at`) and removes the cache entry; when
the EC2 calls succeed it issues exactly one bulk terminate for exactly the
instances tagged with the tenant id in states
{pending, running, stopping, stopped} — or none at all when that set is
empty; and the stored record and cache after the handler do not depend on
the EC2 collaborator at all, so a list/terminate failure (swallowed inside
`terminateRunnersForTenant`) never escalates and never rolls back the
status change. -/
theorem installation_deleted_offboarding (w : InstallationHandler.World)
    (installationId : Int) (now : String) (t : TenantConfig)
    (hex : mapGet w.store installationId = some t) :
    (∃ t2, mapGet ((InstallationHandler.handleInstallationDeleted w installationId now).1).store
        installationId = some t2
      ∧ t2.status = .deleted ∧ t2.updated_at = now)
    ∧ mapGet ((InstallationHandler.handleInstallationDeleted w installationId now).1).cache
        installationId = none
    ∧ (w.ec2.describeFails = false → w.ec2.terminateFails = false →
       (InstallationHandler.handleInstallationDeleted w installationId now).2
         = (if (InstallationHandler.runnersForTenant w.ec2.instances
                  (toString installationId)).isEmpty
            then []
            else [InstallationHandler.runnersForTenant w.ec2.instances
                  (toString installationId)]))
    ∧ (∀ ec2b : InstallationHandler.Ec2World,
       ((InstallationHandler.handleInstallationDeleted ⟨w.store, w.cache, ec2b⟩
           installationId now).1).store
         = ((InstallationHandler.handleInstallationDeleted w installationId now).1).store
       ∧ ((InstallationHandler.handleInstallationDeleted ⟨w.store, w.cache, ec2b⟩
           installationId now).1).cache
         = ((InstallationHandler.handleInstallationDeleted w installationId now).1).cache) := by
  refine ⟨?_, ?_, ?_, ?_⟩
  · refine ⟨applyUpdate t ⟨some .deleted, none, none⟩ now, ?_, ?_, ?_⟩
    · simp [InstallationHandler.handleInstallationDeleted, updateTenant, hex,
        mapGet_mapSet_self]
    · simp [applyUpdate]
    · simp [applyUpdate]
  · simp [InstallationHandler.handleInstallationDeleted, mapGet_mapDelete_self]
  · intro hdf htf
    simp only [InstallationHandler.handleInstallationDeleted,
      InstallationHandler.terminateRunnersForTenant, InstallationHandler.terminateRunnersCore,
      hdf, htf, Bool.false_eq_true, if_false]
    by_cases hempty : (InstallationHandler.runnersForTenant w.ec2.instances
        (toString installationId)).isEmpty
    · simp [hempty]
    · simp [hempty]
  · intro ec2b
    constructor <;> simp [InstallationHandler.handleInstallationDeleted]

/-- C9 witness: concrete world with one active tagged instance, one
terminated tagged instance, and one instance of another tenant — exactly
one bulk terminate for exactly the active tagged instance. -/
theorem installation_deleted_offboarding_witness :
    (∃ t2, mapGet ((InstallationHandler.handleInstallationDeleted Samples.sampleWorld 5
        "t9").1).store 5 = some t2 ∧ t2.status = .deleted ∧ t2.updated_at = "t9")
    ∧ (InstallationHandler.handleInstallationDeleted Samples.sampleWorld 5 "t9").2
        = [["i-1"]] := by
  have h := installation_deleted_offboarding Samples.sampleWorld 5 "t9"
    (Samples.sampleTenant 5) (by decide)
  refine ⟨h.1, ?_⟩
  have h3 := h.2.2.1 rfl rfl
  rw [h3]
  decide
